import Mathlib

/-!
Shallow embedding of the calibre recipe-extractor (src/extractor/*.py):
the safe constant folder of `recipe_parser.py`, URL normalization and
classification of `utils.py`, the feed parser of `rss_fallback.py`, and the
SQLite ingestion layer of `db.py` / `fetch_news.py`.  Python values are
modelled by `Value`, the Python `None` sentinel that `_eval_node` uses for
"Unknown" is modelled by `Option.none`, and a Python exception escaping a
function is modelled by `Except.error ()`.
-/

namespace CalibreExtractor

/-- Python runtime values that can flow through the constant folder:
strings, byte-strings (as byte lists), ints, bools, floats (kept as their
opaque textual representation, no float arithmetic is ever performed on
them), the `Ellipsis` singleton, lists and tuples.  The Python value `None`
is deliberately not a `Value`: the folder uses `None` as its Unknown
sentinel, modelled as `Option.none` at every use site. -/
inductive Value where
  | vstr (s : String)
  | vbytes (b : List Nat)
  | vint (n : Int)
  | vbool (b : Bool)
  | vfloat (repr : String)
  | vellipsis
  | vlist (xs : List Value)
  | vtuple (xs : List Value)

/-- A Python `dict[str, Value]` in insertion order: lookup finds the unique
binding of a key, update replaces in place, fresh keys are appended (this
preserves Python dict iteration order, which `_attr_url_hits` relies on). -/
abbrev Dict := List (String × Value)

/-- Models `d.get(k)` / `d[k]`. -/
def Dict.get : Dict → String → Option Value
  | [], _ => none
  | (k', v) :: rest, k => if k' = k then some v else Dict.get rest k

/-- Models `d[k] = v`: replace in place, else append. -/
def Dict.set : Dict → String → Value → Dict
  | [], k, v => [(k, v)]
  | (k', v') :: rest, k, v =>
      if k' = k then (k', v) :: rest else (k', v') :: Dict.set rest k v

/-- Models the Python dict union `d1 | d2` (right side wins, left side keeps
its key positions). -/
def Dict.merge (d1 d2 : Dict) : Dict :=
  d2.foldl (fun acc kv => acc.set kv.1 kv.2) d1

/-- The apostrophe character, written by code point to keep literals plain. -/
def quoteChar : Char := Char.ofNat 39

/-- Does the character list `cs` start with the pattern `pat`? -/
def leadsWith : List Char → List Char → Bool
  | [], _ => true
  | _ :: _, [] => false
  | p :: ps, c :: cs => p == c && leadsWith ps cs

/-- Does `cs` contain `sub` as a contiguous sublist?  Models the Python
substring test `sub in cs` (an empty pattern always matches). -/
def containsSub (sub : List Char) : List Char → Bool
  | [] => leadsWith sub []
  | c :: rest => leadsWith sub (c :: rest) || containsSub sub rest

/-- Models Python `sub in hay` on strings. -/
def pyContains (hay sub : String) : Bool :=
  containsSub sub.data hay.data

/-- The whitespace characters stripped by Python `str.strip()` restricted to
ASCII (the URLs and attribute names in scope are ASCII). -/
def wsChars : List Char := [' ', '\t', '\n', '\r', Char.ofNat 11, Char.ofNat 12]

/-- Models Python `s.lstrip(chars)` on character lists. -/
def pyLStrip (chars : List Char) (s : List Char) : List Char :=
  s.dropWhile (fun c => chars.contains c)

/-- Models Python `s.rstrip(chars)` on character lists. -/
def pyRStrip (chars : List Char) (s : List Char) : List Char :=
  (s.reverse.dropWhile (fun c => chars.contains c)).reverse

/-- Models Python `s.strip(chars)` on character lists. -/
def pyStrip (chars : List Char) (s : List Char) : List Char :=
  pyRStrip chars (pyLStrip chars s)

/-- Models Python `s.strip()` (whitespace strip) on strings. -/
def stripWs (s : String) : String :=
  String.mk (pyStrip wsChars s.data)

/-- Escapes one character the way Python `repr` escapes string content;
simplified to the escapes relevant here (backslash, quote, newline, tab,
carriage return); other characters stand for themselves.  No claim depends
on the exact rendering. -/
def reprEscape (c : Char) : List Char :=
  if c = '\\' then ['\\', '\\']
  else if c = quoteChar then ['\\', quoteChar]
  else if c = '\n' then ['\\', 'n']
  else if c = '\t' then ['\\', 't']
  else if c = '\r' then ['\\', 'r']
  else [c]

/-- Models Python `repr` of a string, simplified: always single-quoted with
the escapes of `reprEscape` (CPython switches quote characters when the
string itself holds a single quote; no claim depends on that detail). -/
def strRepr (s : String) : String :=
  String.mk ([quoteChar] ++ s.data.flatMap reprEscape ++ [quoteChar])

/-- Hexadecimal digit for a value below 16. -/
def hexDigit (n : Nat) : Char :=
  if n < 10 then Char.ofNat (48 + n) else Char.ofNat (87 + n)

/-- Models Python `str`/`repr` of a bytes object (`b'...'`), simplified:
printable ASCII bytes stand for themselves, the rest are `\xhh` escapes.
No claim depends on the exact rendering. -/
def bytesRepr (b : List Nat) : String :=
  String.mk (['b', quoteChar] ++
    (b.flatMap fun n =>
      if 32 ≤ n ∧ n ≤ 126 ∧ n ≠ 39 ∧ n ≠ 92 then [Char.ofNat n]
      else ['\\', 'x', hexDigit (n / 16 % 16), hexDigit (n % 16)]) ++
    [quoteChar])

/-- The U+FFFD replacement character. -/
def replChar : Char := Char.ofNat 0xFFFD

/-- Models `bytes.decode("utf-8", "replace")`, fuelled by the byte count
(each step consumes at least one byte): well-formed one- to four-byte UTF-8
sequences decode to their code point, anything else becomes U+FFFD.
Overlong/surrogate corner cases are approximated; no claim depends on the
decoded text of invalid byte sequences. -/
def utf8DecodeAux : Nat → List Nat → List Char
  | 0, _ => []
  | _, [] => []
  | fuel + 1, b :: rest =>
    if b < 0x80 then Char.ofNat b :: utf8DecodeAux fuel rest
    else if 0xC2 ≤ b ∧ b ≤ 0xDF then
      match rest with
      | b2 :: rest2 =>
        if 0x80 ≤ b2 ∧ b2 ≤ 0xBF then
          Char.ofNat ((b - 0xC0) * 64 + (b2 - 0x80)) :: utf8DecodeAux fuel rest2
        else replChar :: utf8DecodeAux fuel rest
      | [] => [replChar]
    else if 0xE0 ≤ b ∧ b ≤ 0xEF then
      match rest with
      | b2 :: b3 :: rest3 =>
        if 0x80 ≤ b2 ∧ b2 ≤ 0xBF ∧ 0x80 ≤ b3 ∧ b3 ≤ 0xBF then
          let cp := (b - 0xE0) * 4096 + (b2 - 0x80) * 64 + (b3 - 0x80)
          (if 0xD800 ≤ cp ∧ cp ≤ 0xDFFF then replChar else Char.ofNat cp) ::
            utf8DecodeAux fuel rest3
        else replChar :: utf8DecodeAux fuel rest
      | _ => replChar :: utf8DecodeAux fuel rest
    else if 0xF0 ≤ b ∧ b ≤ 0xF4 then
      match rest with
      | b2 :: b3 :: b4 :: rest4 =>
        if 0x80 ≤ b2 ∧ b2 ≤ 0xBF ∧ 0x80 ≤ b3 ∧ b3 ≤ 0xBF ∧ 0x80 ≤ b4 ∧ b4 ≤ 0xBF then
          let cp := (b - 0xF0) * 0x40000 + (b2 - 0x80) * 4096 + (b3 - 0x80) * 64 + (b4 - 0x80)
          (if cp ≤ 0x10FFFF then Char.ofNat cp else replChar) :: utf8DecodeAux fuel rest4
        else replChar :: utf8DecodeAux fuel rest
      | _ => replChar :: utf8DecodeAux fuel rest
    else replChar :: utf8DecodeAux fuel rest

/-- Models `bytes.decode("utf-8", "replace")` on a byte list. -/
def utf8Decode (b : List Nat) : String :=
  String.mk (utf8DecodeAux b.length b)

/-- Renders the elements of a list separated by `", "`. -/
def commaSep : List String → String
  | [] => ""
  | [s] => s
  | s :: rest => s ++ ", " ++ commaSep rest

mutual

/-- Models Python `str(value)` over the value domain of the folder: the
identity on strings, `True`/`False` on bools, decimal rendering of ints,
the stored textual form of floats, the `b'...'` form of byte-strings, and
bracketed element `repr`s for lists and tuples (a one-element tuple gets
the trailing comma). -/
def pyStr : Value → String
  | .vstr s => s
  | .vbytes b => bytesRepr b
  | .vint n => toString n
  | .vbool b => if b then "True" else "False"
  | .vfloat r => r
  | .vellipsis => "Ellipsis"
  | .vlist xs => "[" ++ commaSep (pyReprList xs) ++ "]"
  | .vtuple xs =>
    let parts := pyReprList xs
    match parts with
    | [p] => "(" ++ p ++ ",)"
    | _ => "(" ++ commaSep parts ++ ")"
termination_by v => (sizeOf v, 0)

/-- Python `repr` of each element of a list, used by `pyStr` on containers. -/
def pyReprList : List Value → List String
  | [] => []
  | x :: rest => pyReprOne x :: pyReprList rest
termination_by l => (sizeOf l, 2)

/-- Models Python `repr(value)`: quotes strings, otherwise agrees with
`str` on this value domain. -/
def pyReprOne : Value → String
  | .vstr s => strRepr s
  | v => pyStr v
termination_by v => (sizeOf v, 1)

end

/-- Reads a replacement field up to the closing brace; `none` models the
`ValueError` CPython raises on an unmatched opening brace. -/
def takeField : List Char → Option (List Char × List Char)
  | [] => none
  | c :: rest =>
    if c = Char.ofNat 125 then some ([], rest)
    else match takeField rest with
      | some (f, r) => some (c :: f, r)
      | none => none

/-- Is the field name a non-empty run of decimal digits? -/
def isDigitsField (f : List Char) : Bool :=
  !f.isEmpty && f.all Char.isDigit

/-- Models CPython `str.format` processing, fuelled by the character count
(each step consumes at least one character).  Supported replacement fields
are the plain forms: auto-numbered, explicit positional, and named, without
conversion or format-spec suffixes; any richer field and every failure mode
(unmatched brace, missing argument or key, mixing auto and manual
numbering) yields `none`, modelling a raised exception.  The caller
`_eval_node` catches every such exception, so no claim depends on which
fields succeed. -/
def fmtCore (args : List Value) (kwargs : List (String × Value)) :
    Nat → List Char → Nat → Option Bool → Option String
  | 0, _, _, _ => none
  | _ + 1, [], _, _ => some ""
  | fuel + 1, c :: cs, auto, mode =>
    if c = Char.ofNat 123 then
      match cs with
      | c2 :: cs2 =>
        if c2 = Char.ofNat 123 then
          (fmtCore args kwargs fuel cs2 auto mode).map (fun t => "\x7b" ++ t)
        else
          match takeField cs with
          | none => none
          | some (field, rest) =>
            if field.any (fun ch => ch ∈ [':', '!', '.', '[']) then none
            else if field.isEmpty then
              match mode with
              | some false => none
              | _ =>
                match args.get? auto with
                | none => none
                | some v =>
                  (fmtCore args kwargs fuel rest (auto + 1) (some true)).map
                    (fun t => pyStr v ++ t)
            else if isDigitsField field then
              match mode with
              | some true => none
              | _ =>
                match (String.mk field).toNat? with
                | none => none
                | some i =>
                  match args.get? i with
                  | none => none
                  | some v =>
                    (fmtCore args kwargs fuel rest auto (some false)).map
                      (fun t => pyStr v ++ t)
            else
              match kwargs.find? (fun p => p.1 = String.mk field) with
              | none => none
              | some p =>
                (fmtCore args kwargs fuel rest auto mode).map
                  (fun t => pyStr p.2 ++ t)
      | [] => none
    else if c = Char.ofNat 125 then
      match cs with
      | c2 :: cs2 =>
        if c2 = Char.ofNat 125 then
          (fmtCore args kwargs fuel cs2 auto mode).map (fun t => "\x7d" ++ t)
        else none
      | [] => none
    else
      (fmtCore args kwargs fuel cs auto mode).map (fun t => String.singleton c ++ t)

/-- Models `base.format(*args, **kwargs)`; `none` models a raised
exception, which `_eval_node` catches and turns into Unknown. -/
def pyFormat (base : String) (args : List Value) (kwargs : List (String × Value)) :
    Option String :=
  fmtCore args kwargs (base.length + 1) base.data 0 none

/-- Abstract syntax of the expression grammar that `_eval_node` of
`recipe_parser.py` inspects.  Node kinds the function does not recognize
(and hence folds to Unknown without touching) are collapsed into `unhandled`;
`ast.Constant` carrying the value `None` is the separate `constNone`, since
`_eval_node` returns it as the Unknown sentinel itself.  `ast.Str` and
`ast.Bytes` are subsumed by `const` (they return their payload exactly as
`ast.Constant` does).  In `callFormat`, a keyword whose name is `none`
models a `**` splat (`kw.arg is None`), which the code filters out. -/
inductive Node where
  | const (v : Value)
  | constNone
  | name (id : String)
  | tuple (elts : List Node)
  | list (elts : List Node)
  | binAdd (left right : Node)
  | joined (values : List Node)
  | fmtValue (value : Node)
  | callFormat (base : Node) (args : List Node) (keywords : List (Option String × Node))
  | unhandled

mutual

/-- Models `_eval_node(node, constants)` of `recipe_parser.py`.  The result
`.ok (some v)` is a folded value, `.ok none` is the Unknown sentinel
(Python `None`), and `.error ()` is an exception escaping the function —
which happens exactly when a `+` whose operands folded to one `str` and one
`bytes` raises `TypeError`. -/
def evalNode : Node → Dict → Except Unit (Option Value)
  | .const v, _ => .ok (some v)
  | .constNone, _ => .ok none
  | .name id, env => .ok (env.get id)
  | .tuple elts, env => do
    let items ← evalElts elts env
    if items.any Option.isNone then pure none
    else pure (some (.vtuple (items.filterMap id)))
  | .list elts, env => do
    let items ← evalElts elts env
    if items.any Option.isNone then pure none
    else pure (some (.vlist (items.filterMap id)))
  | .binAdd l r, env => do
    let lv ← evalNode l env
    let rv ← evalNode r env
    match lv, rv with
    | some (.vstr a), some (.vstr b) => pure (some (.vstr (a ++ b)))
    | some (.vbytes a), some (.vbytes b) => pure (some (.vbytes (a ++ b)))
    | some (.vstr _), some (.vbytes _) => .error ()
    | some (.vbytes _), some (.vstr _) => .error ()
    | some (.vlist a), some (.vlist b) => pure (some (.vlist (a ++ b)))
    | _, _ => pure none
  | .joined values, env => do
    let parts ← evalJoined values env
    match parts with
    | none => pure none
    | some ps => pure (some (.vstr (String.join ps)))
  | .fmtValue v, env => evalNode v env
  | .callFormat base args kws, env => do
    let b ← evalNode base env
    match b with
    | some (.vstr s) => do
      let argVals ← evalElts args env
      let kwVals ← evalKeywords kws env
      if argVals.any Option.isNone || kwVals.any (fun p => p.2.isNone) then
        pure none
      else
        match pyFormat s (argVals.filterMap id)
            (kwVals.filterMap (fun p => p.2.map (fun v => (p.1, v)))) with
        | some out => pure (some (.vstr out))
        | none => pure none
    | _ => pure none
  | .unhandled, _ => .ok none
termination_by n _ => sizeOf n

/-- Folds each element of a literal collection, left to right; an exception
from any element propagates. -/
def evalElts : List Node → Dict → Except Unit (List (Option Value))
  | [], _ => .ok []
  | n :: rest, env => do
    let v ← evalNode n env
    let vs ← evalElts rest env
    pure (v :: vs)
termination_by l _ => sizeOf l

/-- Models the `ast.JoinedStr` loop: folds parts left to right, stops and
yields Unknown at the first part folding to Unknown, stringifies the rest. -/
def evalJoined : List Node → Dict → Except Unit (Option (List String))
  | [], _ => .ok (some [])
  | n :: rest, env => do
    let v ← evalNode n env
    match v with
    | none => pure none
    | some val => do
      let tail ← evalJoined rest env
      match tail with
      | none => pure none
      | some parts => pure (some (pyStr val :: parts))
termination_by l _ => sizeOf l

/-- Models the keyword-argument comprehension of the `format` branch: only
keywords with a (truthy) name are folded and kept, in order. -/
def evalKeywords : List (Option String × Node) → Dict →
    Except Unit (List (String × Option Value))
  | [], _ => .ok []
  | (arg, n) :: rest, env =>
    match arg with
    | some a =>
      if a ≠ "" then do
        let v ← evalNode n env
        let tail ← evalKeywords rest env
        pure ((a, v) :: tail)
      else evalKeywords rest env
    | none => evalKeywords rest env
termination_by l _ => sizeOf l

end

/-- The quote characters stripped from both ends by `normalize_url`. -/
def urlQuoteChars : List Char := [quoteChar, '"']

/-- The trailing punctuation stripped by `normalize_url`:
`)`, `]`, `>`, `.`, `,`, `;`, `"`, apostrophe, space. -/
def urlTrailChars : List Char := [')', ']', '>', '.', ',', ';', '"', quoteChar, ' ']

/-- Models `normalize_url` of `utils.py`: strip whitespace then surrounding
quotes; if nothing is left return `None`; strip trailing punctuation; then
rewrite a leading `feed://` to `http://`. -/
def normalize_url (raw : String) : Option String :=
  let t := pyStrip urlQuoteChars (pyStrip wsChars raw.data)
  if t.isEmpty then none
  else
    let t2 := pyRStrip urlTrailChars t
    let t3 := if leadsWith "feed://".data t2 then "http://".data ++ t2.drop 7 else t2
    some (String.mk t3)

/-- Models Python `str.lower()` restricted to ASCII letters (the Unicode
case table is irrelevant to the URL and attribute names in scope). -/
def pyLower (s : String) : String :=
  String.mk (s.data.map fun c =>
    if 65 ≤ c.toNat ∧ c.toNat ≤ 90 then Char.ofNat (c.toNat + 32) else c)

/-- Models the truthiness test `if attr_name and "feed" in attr_name.lower()`. -/
def attrNameIsFeed (attr_name : Option String) : Bool :=
  match attr_name with
  | some a => a ≠ "" && pyContains (pyLower a) "feed"
  | none => false

/-- Models `classify_url` of `utils.py`: a first-match-wins cascade over the
source tag, the attribute name, and the lowercased URL text. -/
def classify_url (url : String) (source : Option String := none)
    (attr_name : Option String := none) : String :=
  let u := pyLower url
  if source == some "feeds" || attrNameIsFeed attr_name then "feed"
  else if pyContains u "/rss" || pyContains u ".rss" || pyContains u "/atom" ||
      pyContains u ".atom" || pyContains u ".xml" then "feed"
  else if pyContains u "/api/" || pyContains u ".json" || pyContains u "api." then "api"
  else "html"

/-- Characters that end a URL match in `find_urls_in_text`: whitespace,
quotes, and angle brackets (the regex character class `[^\s'"<>]`). -/
def urlStopChar (c : Char) : Bool :=
  wsChars.contains c || c = quoteChar || c = '"' || c = '<' || c = '>'

/-- Tries to match one of the scheme alternatives `https?://` or `feed://`
at the head of `cs`, returning the matched characters and the remainder. -/
def matchScheme (cs : List Char) : Option (List Char × List Char) :=
  if leadsWith "https://".data cs then some ("https://".data, cs.drop 8)
  else if leadsWith "http://".data cs then some ("http://".data, cs.drop 7)
  else if leadsWith "feed://".data cs then some ("feed://".data, cs.drop 7)
  else none

/-- Models `re.findall` with the pattern of `find_urls_in_text`: scan left
to right; at a scheme match, extend greedily over non-stop characters (the
regex needs at least one); matches do not overlap.  Fuelled by the text
length, which bounds the scan since every step consumes at least one
character. -/
def findUrlsAux : Nat → List Char → List String
  | 0, _ => []
  | _ + 1, [] => []
  | fuel + 1, c :: rest =>
    match matchScheme (c :: rest) with
    | some (scheme, afterScheme) =>
      let body := afterScheme.takeWhile (fun ch => !urlStopChar ch)
      if body.isEmpty then findUrlsAux fuel rest
      else
        String.mk (scheme ++ body) ::
          findUrlsAux fuel (afterScheme.dropWhile (fun ch => !urlStopChar ch))
    | none => findUrlsAux fuel rest

/-- Models `find_urls_in_text` of `utils.py`. -/
def find_urls_in_text (text : String) : List String :=
  findUrlsAux text.length text.data

/-- Models `html.unescape` restricted to the five predefined XML entities;
the full named-entity table of the standard library is not reproduced (no
claim depends on which entities decode).  Fuelled by the text length. -/
def unescapeAux : Nat → List Char → List Char
  | 0, _ => []
  | _ + 1, [] => []
  | fuel + 1, c :: rest =>
    if c = '&' then
      if leadsWith "amp;".data rest then '&' :: unescapeAux fuel (rest.drop 4)
      else if leadsWith "lt;".data rest then '<' :: unescapeAux fuel (rest.drop 3)
      else if leadsWith "gt;".data rest then '>' :: unescapeAux fuel (rest.drop 3)
      else if leadsWith "quot;".data rest then '"' :: unescapeAux fuel (rest.drop 5)
      else if leadsWith "#39;".data rest then quoteChar :: unescapeAux fuel (rest.drop 4)
      else c :: unescapeAux fuel rest
    else c :: unescapeAux fuel rest

/-- Models `decode_html_entities` of `utils.py`. -/
def decode_html_entities (text : String) : String :=
  String.mk (unescapeAux text.length text.data)

/-- Confidence scores, represented exactly as rationals. -/
def conf050 : ℚ := 50 / 100

/-- Confidence of a literal-scanner hit. -/
def conf060 : ℚ := 60 / 100

/-- Confidence of an attribute-URL hit. -/
def conf080 : ℚ := 80 / 100

/-- Confidence of a bare feeds-list hit. -/
def conf095 : ℚ := 95 / 100

/-- Confidence of a titled feeds-list hit. -/
def conf098 : ℚ := 98 / 100

/-- Models the `EndpointHit` dataclass of `utils.py`.  The `raw_url` field
holds the textual form of the raw value (for a bytes value the code keeps
the object itself, which only flows opaquely into storage). -/
structure EndpointHit where
  url : String
  url_type : String
  source : String
  context : Option String := none
  feed_title : Option String := none
  raw_url : Option String := none
  confidence : ℚ := conf050
deriving Repr, DecidableEq

/-- The base-class expressions that `_is_recipe_base` inspects: a simple
name (`ast.Name`, carrying `.id`), a qualified attribute (`ast.Attribute`,
of which only `.attr` is read), or anything else. -/
inductive BaseExpr where
  | bname (id : String)
  | battr (attrName : String)
  | bother

/-- An assignment target: a simple name (`ast.Name`) or anything else. -/
inductive Target where
  | tname (id : String)
  | tother

/-- The binary operator of an augmented assignment: `ast.Add` or any other. -/
inductive AugOp where
  | addOp
  | otherOp

/-- The statement kinds that `recipe_parser.py` distinguishes:
`ast.Assign`, `ast.AnnAssign` (whose value may be absent), `ast.AugAssign`,
`ast.ClassDef`, and everything else collapsed into `sother`.  The walkers
never recurse into nested statements except through a located class body. -/
inductive Stmt where
  | assign (targets : List Target) (value : Node)
  | annAssign (target : Target) (value : Option Node)
  | augAssign (target : Target) (op : AugOp) (value : Node)
  | classDef (name : String) (bases : List BaseExpr) (body : List Stmt)
  | sother

/-- The recognized periodical base-class names. -/
def recipeBaseNames : List String :=
  ["BasicNewsRecipe", "AutomaticNewsRecipe", "CustomIndexRecipe", "CalibrePeriodical"]

/-- Models `_is_recipe_base` of `recipe_parser.py`. -/
def is_recipe_base : BaseExpr → Bool
  | .bname id => recipeBaseNames.contains id
  | .battr a => recipeBaseNames.contains a
  | .bother => false

/-- The retention test of `_collect_module_constants`:
`isinstance(val, (str, bytes, int, float, list, tuple))`.  A Python `bool`
is an `int` subclass and therefore passes; `Ellipsis` does not. -/
def isConstLike : Value → Bool
  | .vstr _ => true
  | .vbytes _ => true
  | .vint _ => true
  | .vfloat _ => true
  | .vbool _ => true
  | .vlist _ => true
  | .vtuple _ => true
  | .vellipsis => false

/-- Models `_collect_module_constants` of `recipe_parser.py`: walk the
top-level statements in order; fold the right side of each single-target
name assignment against the constants gathered so far; retain only values
passing `isConstLike`.  An exception from the folder propagates. -/
def collect_module_constants : List Stmt → Dict → Except Unit Dict
  | [], acc => .ok acc
  | .assign [.tname id] value :: rest, acc => do
    let v? ← evalNode value acc
    let acc' := match v? with
      | some v => if isConstLike v then acc.set id v else acc
      | none => acc
    collect_module_constants rest acc'
  | _ :: rest, acc => collect_module_constants rest acc

/-- Models `_find_recipe_class` of `recipe_parser.py`: the first top-level
class whose base list holds a recognized base. -/
def find_recipe_class : List Stmt → Option (String × List BaseExpr × List Stmt)
  | [] => none
  | .classDef n bases body :: rest =>
    if bases.any is_recipe_base then some (n, bases, body)
    else find_recipe_class rest
  | _ :: rest => find_recipe_class rest

/-- One step of `_extract_class_assignments`: how a single class-body
statement transforms the attribute environment, folding against
`constants | assigns`.  An exception from the folder propagates. -/
def classBodyStep (constants assigns : Dict) : Stmt → Except Unit Dict
  | .assign [.tname id] value => do
    let v? ← evalNode value (constants.merge assigns)
    pure (match v? with
      | some v => assigns.set id v
      | none => assigns)
  | .annAssign (.tname id) value? =>
    match value? with
    | some vnode => do
      let v? ← evalNode vnode (constants.merge assigns)
      pure (match v? with
        | some v => assigns.set id v
        | none => assigns)
    | none => pure assigns
  | .augAssign (.tname id) .addOp value => do
    let extra ← evalNode value (constants.merge assigns)
    pure (match assigns.get id, extra with
      | some (.vlist cur), some (.vlist ext) => assigns.set id (.vlist (cur ++ ext))
      | _, _ => assigns)
  | _ => pure assigns

/-- Folds `classBodyStep` over a class body, starting from `assigns`. -/
def classBodyWalk (constants : Dict) : List Stmt → Dict → Except Unit Dict
  | [], assigns => .ok assigns
  | item :: rest, assigns => do
    let assigns' ← classBodyStep constants assigns item
    classBodyWalk constants rest assigns'

/-- Models `_extract_class_assignments` of `recipe_parser.py`. -/
def extract_class_assignments (body : List Stmt) (constants : Dict) :
    Except Unit Dict :=
  classBodyWalk constants body []

/-- Decodes a value that may be a byte-string, as the feeds extractor does
before treating it as a URL or title. -/
def decodeIfBytes : Value → Value
  | .vbytes b => .vstr (utf8Decode b)
  | v => v

/-- The `url = normalize_url(...)` / `if url:` emission idiom that
`recipe_parser.py` repeats in every extractor: normalize the raw string,
and build a hit only when the result is truthy (neither `None` nor empty). -/
def emitNorm (s : String) (F : String → EndpointHit) : Option EndpointHit :=
  match normalize_url s with
  | some url => if url ≠ "" then some (F url) else none
  | none => none

/-- The hit built from one element of a `feeds` list, or `none` when the
element is skipped: a bare string or byte-string becomes a 0.95-confidence
hit, a pair-like list or tuple of length at least two becomes a
0.98-confidence hit with the feed title (`str(title)` of the permissively
decoded title and `str(url)` of the decoded URL, which for the reachable
string case is the string itself); anything else is skipped, as is an entry
whose URL normalizes to `None` or to the empty string. -/
def feedEntryHit (entry : Value) : Option EndpointHit :=
  match entry with
  | .vstr s =>
    emitNorm s fun url =>
      { url := url, url_type := classify_url url (some "feeds") none,
        source := "feeds", raw_url := some s, confidence := conf095 }
  | .vbytes b =>
    emitNorm (utf8Decode b) fun url =>
      { url := url, url_type := classify_url url (some "feeds") none,
        source := "feeds", raw_url := some (utf8Decode b), confidence := conf095 }
  | .vlist es | .vtuple es =>
    match es with
    | t :: u :: _ =>
      match decodeIfBytes u with
      | .vstr s =>
        emitNorm s fun url =>
          { url := url, url_type := classify_url url (some "feeds") none,
            source := "feeds", feed_title := some (pyStr (decodeIfBytes t)),
            raw_url := some s, confidence := conf098 }
      | _ => none
    | _ => none
  | _ => none

/-- Models `_feeds_to_endpoints` of `recipe_parser.py`. -/
def feeds_to_endpoints (feeds : Option Value) : List EndpointHit :=
  match feeds with
  | some (.vlist entries) => entries.filterMap feedEntryHit
  | some (.vtuple entries) => entries.filterMap feedEntryHit
  | _ => []

/-- The hit built from one class attribute by `_attr_url_hits`, or `none`:
the attribute name must contain `url` case-insensitively and the value must
be a string or byte-string; the normalized URL must be truthy. -/
def attrHit (name : String) (value : Value) : Option EndpointHit :=
  if pyContains (pyLower name) "url" then
    match value with
    | .vstr s =>
      emitNorm s fun url =>
        { url := url, url_type := classify_url url (some "attr") (some name),
          source := "attr", context := some name, raw_url := some s,
          confidence := conf080 }
    | .vbytes b =>
      emitNorm (utf8Decode b) fun url =>
        { url := url, url_type := classify_url url (some "attr") (some name),
          source := "attr", context := some name,
          raw_url := some (pyStr (.vbytes b)), confidence := conf080 }
    | _ => none
  else none

/-- Models `_attr_url_hits` of `recipe_parser.py`, iterating the attribute
environment in insertion order. -/
def attr_url_hits (assigns : Dict) : List EndpointHit :=
  assigns.filterMap fun kv => attrHit kv.1 kv.2

/-- Models the `RecipeMetadata` dataclass of `recipe_parser.py`. -/
structure RecipeMetadata where
  recipe_uid : String
  title : Option String
  author : Option String
  description : Option String
  language : Option String
  publication_type : Option String
  needs_subscription : Option String
  class_name : Option String
deriving Repr, DecidableEq

/-- The all-null metadata returned on a parse failure. -/
def nullMetadata : RecipeMetadata :=
  { recipe_uid := "", title := none, author := none, description := none,
    language := none, publication_type := none, needs_subscription := none,
    class_name := none }

/-- Models the local `_as_str` of `parse_recipe_file`. -/
def as_str : Option Value → Option String
  | none => none
  | some (.vbytes b) => some (utf8Decode b)
  | some (.vstr s) => some s
  | some v => some (pyStr v)

/-- The literal-scanner hits of `parse_recipe_file`: every URL-shaped match
of the entity-decoded raw text, normalized, kept when truthy. -/
def literalHits (raw : String) : List EndpointHit :=
  (find_urls_in_text (decode_html_entities raw)).filterMap fun found =>
    emitNorm found fun url =>
      { url := url, url_type := classify_url url (some "literal") none,
        source := "literal", raw_url := some found, confidence := conf060 }

/-- Models `parse_recipe_file` of `recipe_parser.py`.  Reading the file and
entity-decoding yield the text `raw`; the external `ast.parse` capability
is modelled by the `parsed` input, `.error msg` standing for the
`SyntaxError` it raises on malformed text and `.ok body` for the parsed
top-level statements of the decoded text.  The result `.error ()` models an
exception escaping the function (possible only through the folder's
`str`/`bytes` addition slip on the success path). -/
def parse_recipe_file (raw : String) (parsed : Except String (List Stmt)) :
    Except Unit (RecipeMetadata × List EndpointHit × Option String) :=
  let url_hits := literalHits raw
  match parsed with
  | .error msg => .ok (nullMetadata, url_hits, some ("SyntaxError: " ++ msg))
  | .ok body => do
    let constants ← collect_module_constants body []
    let cls := find_recipe_class body
    let class_name := cls.map (fun c => c.1)
    let assigns ← match cls with
      | some c => extract_class_assignments c.2.2 constants
      | none => .ok ([] : Dict)
    let meta : RecipeMetadata :=
      { recipe_uid := "",
        title := as_str (assigns.get "title"),
        author := as_str (assigns.get "__author__"),
        description := as_str (assigns.get "description"),
        language := as_str (assigns.get "language"),
        publication_type := as_str (assigns.get "publication_type"),
        needs_subscription := as_str (assigns.get "needs_subscription"),
        class_name := class_name }
    let hits := url_hits ++ feeds_to_endpoints (assigns.get "feeds") ++ attr_url_hits assigns
    .ok (meta, hits, none)

/-- An XML element as `xml.etree.ElementTree` presents it to
`rss_fallback.py`: tag, attributes, direct text, and child elements. -/
inductive Element where
  | mk (tag : String) (attrib : List (String × String)) (text : Option String)
      (children : List Element)

/-- The tag of an element. -/
def Element.tag : Element → String
  | .mk t _ _ _ => t

/-- The attribute dictionary of an element. -/
def Element.attrib : Element → List (String × String)
  | .mk _ a _ _ => a

/-- The direct text of an element (`None` when absent). -/
def Element.text : Element → Option String
  | .mk _ _ t _ => t

/-- The direct children of an element. -/
def Element.children : Element → List Element
  | .mk _ _ _ c => c

/-- Models `elem.attrib.get(key)`. -/
def attribGet (attrib : List (String × String)) (key : String) : Option String :=
  (attrib.find? (fun p => p.1 = key)).map (fun p => p.2)

/-- Models `_strip_ns` of `rss_fallback.py`: drop everything up to and
including the first closing brace of a namespace-qualified tag. -/
def strip_ns (tag : String) : String :=
  if tag.data.contains (Char.ofNat 125) then
    String.mk ((tag.data.dropWhile (fun c => c ≠ Char.ofNat 125)).drop 1)
  else tag

/-- Python truthiness of an optional string: present and non-empty. -/
def optTruthy : Option String → Bool
  | some s => s ≠ ""
  | none => false

/-- Models `_find_child_text` of `rss_fallback.py`: scan the children in
order; at the first child with the (namespace-stripped) tag whose text is
truthy, return that text stripped of whitespace; children with the right
tag but falsy text do not stop the scan. -/
def find_child_text (children : List Element) (name : String) : Option String
  := match children with
  | [] => none
  | c :: rest =>
    if strip_ns c.tag = name then
      match c.text with
      | some t => if t ≠ "" then some (stripWs t) else find_child_text rest name
      | none => find_child_text rest name
    else find_child_text rest name

/-- Models `_find_child` of `rss_fallback.py`: the first child with the
namespace-stripped tag. -/
def find_child (children : List Element) (name : String) : Option Element :=
  children.find? (fun c => strip_ns c.tag = name)

/-- Models Python `a or b` on optional strings: `a` when truthy, else `b`. -/
def pyOrOpt (a b : Option String) : Option String :=
  if optTruthy a then a else b

/-- One parsed feed entry, the dict built per item by `parse_feed`. -/
structure Entry where
  title : Option String
  link : Option String
  guid : Option String
  published : Option String
  summary : Option String
  content : Option String
deriving Repr, DecidableEq

/-- Models the `content:encoded` scan of the RSS branch: the first child
whose namespace-stripped tag is `encoded` and whose text is truthy. -/
def encodedContent : List Element → Option String
  | [] => none
  | c :: rest =>
    if strip_ns c.tag = "encoded" && optTruthy c.text then c.text
    else encodedContent rest

/-- The entry built from one RSS `<item>`. -/
def rssEntry (item : Element) : Entry :=
  { title := find_child_text item.children "title",
    link := find_child_text item.children "link",
    guid := find_child_text item.children "guid",
    published := find_child_text item.children "pubDate",
    summary := find_child_text item.children "description",
    content := encodedContent item.children }

/-- Models the Atom link selection loop: the `href` of the first link whose
`rel` (defaulting to `alternate`) is `alternate` ends the scan; otherwise
the first `href` seen is kept. -/
def atomLink : List Element → Option String → Option String
  | [], acc => acc
  | l :: rest, acc =>
    if (attribGet l.attrib "rel").getD "alternate" = "alternate" then
      attribGet l.attrib "href"
    else
      atomLink rest (if acc.isNone then attribGet l.attrib "href" else acc)

/-- The entry built from one Atom `<entry>`. -/
def atomEntry (item : Element) : Entry :=
  { title := find_child_text item.children "title",
    link := atomLink (item.children.filter (fun c => c.tag = "link")) none,
    guid := find_child_text item.children "id",
    published := pyOrOpt (find_child_text item.children "published")
      (find_child_text item.children "updated"),
    summary := find_child_text item.children "summary",
    content := find_child_text item.children "content" }

/-- Models `parse_feed` of `rss_fallback.py`.  Its input is the outcome of
`ET.fromstring(xml_bytes)`: `.ok root` for well-formed XML and
`.error ()` for the `ParseError` raised on a malformed payload — an
exception `parse_feed` does not catch, so it propagates.  `findall` with a
plain tag matches direct children by exact (not namespace-stripped) tag,
exactly as in the source. -/
def parse_feed (fromstring_result : Except Unit Element) :
    Except Unit (Option String × List Entry) := do
  let root ← fromstring_result
  let root_tag := strip_ns root.tag
  if root_tag = "rss" then
    match find_child root.children "channel" with
    | none => pure (none, [])
    | some channel =>
      pure (find_child_text channel.children "title",
        (channel.children.filter (fun c => c.tag = "item")).map rssEntry)
  else if root_tag = "feed" then
    pure (find_child_text root.children "title",
      (root.children.filter (fun c => c.tag = "entry")).map atomEntry)
  else
    pure (none, [])

/-- A stored row of the `recipe_endpoints` table of `db.py`. -/
structure LinkRow where
  recipe_id : Nat
  endpoint_id : Nat
  context : Option String
  feed_title : Option String
  source : String
  confidence : ℚ
  raw_url : Option String
  first_seen : String
  last_seen : String
deriving Repr, DecidableEq

/-- SQLite equality as used by a UNIQUE index over a nullable column: every
NULL is distinct from everything, including another NULL. -/
def sqlNullEq (a b : Option String) : Bool :=
  match a, b with
  | some x, some y => x = y
  | _, _ => false

/-- Does a stored row conflict with an insert under the composite UNIQUE
index `(recipe_id, endpoint_id, context, feed_title, source)` of the
`recipe_endpoints` schema?  NULLs never conflict. -/
def linkConflicts (r : LinkRow) (recipe_id endpoint_id : Nat)
    (context feed_title : Option String) (source : String) : Bool :=
  r.recipe_id = recipe_id && r.endpoint_id = endpoint_id &&
    sqlNullEq r.context context && sqlNullEq r.feed_title feed_title &&
    r.source = source

/-- Models `link_recipe_endpoint` of `db.py`: an
`INSERT ... ON CONFLICT(recipe_id, endpoint_id, context, feed_title, source)
DO UPDATE SET last_seen=excluded.last_seen` against the stored table, with
`ts` standing for `now_utc_iso()`.  When no stored row conflicts (which,
per SQLite NULL semantics, is always the case when `context` or
`feed_title` is NULL) a fresh row is appended with both timestamps set to
`ts`; otherwise only `last_seen` of the conflicting row is refreshed. -/
def link_recipe_endpoint (table : List LinkRow) (recipe_id endpoint_id : Nat)
    (source : String) (context feed_title : Option String)
    (raw_url : Option String) (confidence : ℚ) (ts : String) : List LinkRow :=
  if table.any (fun r => linkConflicts r recipe_id endpoint_id context feed_title source) then
    table.map fun r =>
      if linkConflicts r recipe_id endpoint_id context feed_title source then
        { r with last_seen := ts }
      else r
  else
    table ++ [{ recipe_id := recipe_id, endpoint_id := endpoint_id,
                context := context, feed_title := feed_title, source := source,
                confidence := confidence, raw_url := raw_url,
                first_seen := ts, last_seen := ts }]

/-- A stored row of the `articles` table of `db.py` (the `id` surrogate key
is the list position). -/
structure ArticleRow where
  recipe_uid : String
  recipe_title : Option String
  feed_title : Option String
  article_title : Option String
  article_url : Option String
  article_guid : Option String
  author : Option String
  summary : Option String
  published : Option String
  fetched_at : String
  content_html : String
  content_text : String
  content_hash : Option String
  fingerprint : String
deriving Repr, DecidableEq

/-- Models `_insert_article` of `fetch_news.py`: an `INSERT OR IGNORE` into
`articles`, whose only applicable uniqueness constraint is the non-null
`fingerprint` column — on a duplicate fingerprint the statement is dropped
and the stored table is untouched. -/
def insert_article (table : List ArticleRow) (payload : ArticleRow) : List ArticleRow :=
  if table.any (fun r => r.fingerprint = payload.fingerprint) then table
  else table ++ [payload]

/-- C1: the claim says `_eval_node` is total and never lets an exception
escape, in particular not for a binary addition whose operands fold to
mismatched types.  The code belies it: on `"a" + b"x"` both operands pass
the combined `isinstance(..., (str, bytes))` test, Python evaluates
`"a" + b"x"`, and the resulting `TypeError` escapes uncaught — the
evaluation below lands in `.error`, the modelled escaped exception. -/
theorem c1_eval_node_raises_on_str_plus_bytes :
    evalNode (.binAdd (.const (.vstr "a")) (.const (.vbytes [120]))) [] = .error () := by
  simp [evalNode, Bind.bind, Except.bind]

/-- C2: the claim says a binary addition folds to a concatenation when both
operands fold to strings (or both to byte-strings, or both to lists) and to
Unknown in every other case, in particular for a string plus a byte-string.
The code matches the claim on the homogeneous cases — shown below for
`"a" + "b"` and `["a"] + ["b"]` — but on `b"b" + "a"` it raises `TypeError`
instead of yielding Unknown: the third conjunct evaluates to the modelled
escaped exception, not to `.ok none`. -/
theorem c2_binadd_concats_but_mixed_raises :
    evalNode (.binAdd (.const (.vstr "a")) (.const (.vstr "b"))) [] =
      .ok (some (.vstr "ab")) ∧
    evalNode (.binAdd (.list [.const (.vstr "a")]) (.list [.const (.vstr "b")])) [] =
      .ok (some (.vlist [.vstr "a", .vstr "b"])) ∧
    evalNode (.binAdd (.const (.vbytes [98])) (.const (.vstr "a"))) [] = .error () := by
  refine ⟨?_, ?_, ?_⟩ <;>
    simp [evalNode, evalElts, Bind.bind, Except.bind, Pure.pure, Except.pure]

/-- C3: the claim says linking the same composite key twice — including a
key whose context or feedTitle is null — leaves one row with only
`last_seen` refreshed.  Under SQLite semantics a NULL in a UNIQUE column is
distinct from every value including NULL, so the `ON CONFLICT` clause never
fires for such keys: linking `(1, 2, NULL, NULL, "feeds")` twice stores two
full rows, and the first row's `last_seen` is not advanced. -/
theorem c3_null_key_link_stores_two_rows :
    link_recipe_endpoint
        (link_recipe_endpoint [] 1 2 "feeds" none none (some "http://x.com/rss")
          conf098 "T1")
        1 2 "feeds" none none (some "http://x.com/rss") conf098 "T2" =
      [{ recipe_id := 1, endpoint_id := 2, context := none, feed_title := none,
         source := "feeds", confidence := conf098, raw_url := some "http://x.com/rss",
         first_seen := "T1", last_seen := "T1" },
       { recipe_id := 1, endpoint_id := 2, context := none, feed_title := none,
         source := "feeds", confidence := conf098, raw_url := some "http://x.com/rss",
         first_seen := "T2", last_seen := "T2" }] := by
  rfl

/-- C4: inserting an article payload twice with the same fingerprint leaves
exactly one stored row, and the second insert is a silent no-op — the
stored row keeps every field of the first payload, including `fetched_at`,
even when the re-fetch carries different field values. -/
theorem c4_insert_article_duplicate_is_noop (t : List ArticleRow) (p q : ArticleRow)
    (hfp : q.fingerprint = p.fingerprint)
    (hfresh : ∀ r ∈ t, r.fingerprint ≠ p.fingerprint) :
    insert_article (insert_article t p) q = t ++ [p] ∧
    (insert_article (insert_article t p) q).filter
      (fun r => r.fingerprint = p.fingerprint) = [p] := by
  have hany : t.any (fun r => decide (r.fingerprint = p.fingerprint)) = false := by
    simp only [List.any_eq_false, decide_eq_true_eq]
    exact hfresh
  have h1 : insert_article t p = t ++ [p] := by
    simp [insert_article, hany]
  have hany2 : (t ++ [p]).any (fun r => decide (r.fingerprint = q.fingerprint)) = true := by
    simp [List.any_append, hfp]
  have h2 : insert_article (insert_article t p) q = t ++ [p] := by
    rw [h1]
    simp [insert_article, hany2]
  refine ⟨h2, ?_⟩
  rw [h2]
  have hfilter : t.filter (fun r => decide (r.fingerprint = p.fingerprint)) = [] := by
    simp only [List.filter_eq_nil_iff, decide_eq_true_eq]
    exact hfresh
  simp [List.filter_append, hfilter]

/-- Witness for C4 at a concrete pair of payloads differing in
`fetched_at` but sharing a fingerprint, inserted into an empty store. -/
theorem c4_insert_article_duplicate_is_noop_witness :
    insert_article
        (insert_article []
          { recipe_uid := "r", recipe_title := none, feed_title := none,
            article_title := some "t", article_url := some "u", article_guid := none,
            author := none, summary := none, published := none, fetched_at := "T1",
            content_html := "", content_text := "", content_hash := none,
            fingerprint := "f" })
        { recipe_uid := "r", recipe_title := none, feed_title := none,
          article_title := some "t", article_url := some "u", article_guid := none,
          author := none, summary := none, published := none, fetched_at := "T2",
          content_html := "", content_text := "", content_hash := none,
          fingerprint := "f" } =
      [] ++ [{ recipe_uid := "r", recipe_title := none, feed_title := none,
               article_title := some "t", article_url := some "u", article_guid := none,
               author := none, summary := none, published := none, fetched_at := "T1",
               content_html := "", content_text := "", content_hash := none,
               fingerprint := "f" }] :=
  (c4_insert_article_duplicate_is_noop []
    { recipe_uid := "r", recipe_title := none, feed_title := none,
      article_title := some "t", article_url := some "u", article_guid := none,
      author := none, summary := none, published := none, fetched_at := "T1",
      content_html := "", content_text := "", content_hash := none,
      fingerprint := "f" }
    { recipe_uid := "r", recipe_title := none, feed_title := none,
      article_title := some "t", article_url := some "u", article_guid := none,
      author := none, summary := none, published := none, fetched_at := "T2",
      content_html := "", content_text := "", content_hash := none,
      fingerprint := "f" }
    rfl (by simp)).1

/-- C5: when the document text fails to parse, `parse_recipe_file` returns
without raising: the metadata fields are all null, the error is the
captured message, and the literal-scanner hits of the raw text are still
returned. -/
theorem c5_parse_failure_degrades_to_null (raw msg : String) :
    parse_recipe_file raw (.error msg) =
      .ok ({ recipe_uid := "", title := none, author := none, description := none,
             language := none, publication_type := none,
             needs_subscription := none, class_name := none },
           literalHits raw, some ("SyntaxError: " ++ msg)) :=
  rfl

/-- C6 counterexample: the claim says `parse_feed` never raises and a
malformed payload yields an empty result, but the code calls
`ET.fromstring` outside any handler, so the `ParseError` a malformed
payload provokes propagates out of `parse_feed` (the per-feed containment
happens only in the caller `_run_rss_mode`). -/
theorem c6_malformed_payload_raises :
    parse_feed (.error ()) = .error () :=
  rfl

/-- C6 amended: for well-formed XML whose root element is neither `rss` nor
`feed` after namespace stripping, `parse_feed` returns an empty title and
an empty entry list rather than an error. -/
theorem c6_unrecognized_root_yields_empty (e : Element)
    (h1 : strip_ns e.tag ≠ "rss") (h2 : strip_ns e.tag ≠ "feed") :
    parse_feed (.ok e) = .ok (none, []) := by
  simp [parse_feed, Bind.bind, Except.bind, Pure.pure, Except.pure, h1, h2]

/-- Witness for the amended C6 at a concrete element with root tag `html`. -/
theorem c6_unrecognized_root_yields_empty_witness :
    parse_feed (.ok (.mk "html" [] none [])) = .ok (none, []) :=
  c6_unrecognized_root_yields_empty (.mk "html" [] none []) (by decide) (by decide)

/-- C7 counterexample: the claim says an augmented assignment applies when
both the stored value and the folded increment are sequences, lists or
tuples alike.  In the class body `x = ("a",); x += ("b",)` both sides are
tuples, yet the extractor leaves the environment at the first tuple — the
`isinstance(..., list)` tests accept lists only — instead of storing the
concatenation the claim requires. -/
theorem c7_tuple_augment_is_ignored :
    extract_class_assignments
        [.assign [.tname "x"] (.tuple [.const (.vstr "a")]),
         .augAssign (.tname "x") .addOp (.tuple [.const (.vstr "b")])] [] =
      .ok [("x", Value.vtuple [Value.vstr "a"])] ∧
    extract_class_assignments
        [.assign [.tname "x"] (.tuple [.const (.vstr "a")]),
         .augAssign (.tname "x") .addOp (.tuple [.const (.vstr "b")])] [] ≠
      .ok [("x", Value.vtuple [Value.vstr "a", Value.vstr "b"])] := by
  constructor <;>
    simp [extract_class_assignments, classBodyWalk, classBodyStep, evalNode,
      evalElts, Dict.merge, Dict.set, Dict.get, Bind.bind, Except.bind,
      Pure.pure, Except.pure, Value.vtuple.injEq, List.cons.injEq, Prod.mk.injEq]

/-- The update an Add-augmented assignment on name `id` performs once its
increment has folded to `extra?`: the concatenation is stored exactly when
the stored value and the increment are both lists, else nothing changes. -/
def augAddResult (assigns : Dict) (id : String) (extra? : Option Value) : Dict :=
  match assigns.get id, extra? with
  | some (.vlist cur), some (.vlist ext) => assigns.set id (.vlist (cur ++ ext))
  | _, _ => assigns

/-- C7 amended: in the class attribute extractor, an augmented assignment
with the `+` operator on a name target is applied exactly when both the
currently stored value and the folded increment are lists, in which case
their concatenation is stored; in every other evaluated case — including
tuples on either side and the case of no stored value — the environment is
unchanged, and a non-`Add` operator or a non-name target is ignored without
folding at all. -/
theorem c7_aug_add_applies_only_to_lists (constants assigns : Dict) (id : String)
    (v : Node) (extra? : Option Value)
    (h : evalNode v (constants.merge assigns) = .ok extra?) :
    classBodyStep constants assigns (.augAssign (.tname id) .addOp v) =
      .ok (augAddResult assigns id extra?) ∧
    classBodyStep constants assigns (.augAssign (.tname id) .otherOp v) = .ok assigns ∧
    classBodyStep constants assigns (.augAssign .tother .addOp v) = .ok assigns := by
  refine ⟨?_, rfl, rfl⟩
  simp only [classBodyStep, Bind.bind, h]
  rfl

/-- Witness for the amended C7: a stored list `["a"]` augmented by a folded
list `["b"]` becomes the stored concatenation `["a", "b"]`. -/
theorem c7_aug_add_applies_only_to_lists_witness :
    classBodyStep [] [("x", Value.vlist [Value.vstr "a"])]
        (.augAssign (.tname "x") .addOp (.list [.const (.vstr "b")])) =
      .ok [("x", Value.vlist [Value.vstr "a", Value.vstr "b"])] :=
  (c7_aug_add_applies_only_to_lists [] [("x", Value.vlist [Value.vstr "a"])] "x"
    (.list [.const (.vstr "b")]) (some (.vlist [.vstr "b"]))
    (by simp [evalNode, evalElts, Dict.merge, Dict.set, Bind.bind, Except.bind,
      Pure.pure, Except.pure])).1

/-- Dropping stripped characters is the identity when the first character
is not stripped. -/
theorem dropWhile_head_not {chars m : List Char}
    (h : m.head?.all (fun c => !chars.contains c) = true) :
    m.dropWhile (fun c => chars.contains c) = m := by
  cases m with
  | nil => rfl
  | cons a t =>
    have hmem : a ∉ chars := by simpa using h
    simp [List.dropWhile_cons, hmem]

/-- A left strip is the identity when the first character is not stripped. -/
theorem lstrip_of_head {chars l} (h : l.head?.all (fun c => !chars.contains c) = true) :
    pyLStrip chars l = l := by
  unfold pyLStrip
  exact dropWhile_head_not h

/-- A right strip is the identity when the last character is not stripped. -/
theorem rstrip_of_getLast {chars l} (h : l.getLast?.all (fun c => !chars.contains c) = true) :
    pyRStrip chars l = l := by
  unfold pyRStrip
  rw [dropWhile_head_not (by rw [List.head?_reverse]; exact h), List.reverse_reverse]

/-- A two-sided strip is the identity when neither end character is
stripped. -/
theorem pyStrip_of_ends {chars l}
    (hh : l.head?.all (fun c => !chars.contains c) = true)
    (hl : l.getLast?.all (fun c => !chars.contains c) = true) :
    pyStrip chars l = l := by
  unfold pyStrip
  rw [lstrip_of_head hh, rstrip_of_getLast hl]

/-- Bridges a membership hypothesis on an optional character to the boolean
`Option.all` form used by the strip lemmas. -/
theorem optAllOfMem (chars : List Char) (o : Option Char) (h : ∀ c ∈ o, c ∉ chars) :
    o.all (fun c => !chars.contains c) = true := by
  cases o with
  | none => rfl
  | some a => simpa using h a rfl

/-- C8: `normalize_url` rewrites a leading `feed://` to `http://` keeping
the remainder; a URL wrapped in stray whitespace, quotes, and trailing
punctuation strips to the bare URL; the `None` result occurs exactly when
the whitespace-and-quote trim alone empties the string; no returned URL
retains a `feed://` scheme; and a string clean at both ends with no
`feed://` scheme is returned unchanged. -/
theorem c8_normalize_url_behaviour :
    normalize_url "feed://x.com/rss" = some "http://x.com/rss" ∧
    normalize_url " \"https://a.b/c\")." = some "https://a.b/c" ∧
    (∀ s : String, normalize_url s = none ↔
      pyStrip urlQuoteChars (pyStrip wsChars s.data) = []) ∧
    (∀ (s u : String), normalize_url s = some u →
      leadsWith "feed://".data u.data = false) ∧
    (∀ s : String, s.data ≠ [] →
      (∀ c ∈ s.data.head?, c ∉ wsChars ∧ c ∉ urlQuoteChars) →
      (∀ c ∈ s.data.getLast?, c ∉ wsChars ∧ c ∉ urlQuoteChars ∧ c ∉ urlTrailChars) →
      leadsWith "feed://".data s.data = false →
      normalize_url s = some s) := by
  refine ⟨by decide, by decide, ?_, ?_, ?_⟩
  · intro s
    unfold normalize_url
    by_cases h : (pyStrip urlQuoteChars (pyStrip wsChars s.data)).isEmpty = true
    · simp [h, List.isEmpty_iff.mp h]
    · have hne : pyStrip urlQuoteChars (pyStrip wsChars s.data) ≠ [] := by
        simpa [List.isEmpty_iff] using h
      simp [h, hne]
  · intro s u h
    unfold normalize_url at h
    by_cases hemp : (pyStrip urlQuoteChars (pyStrip wsChars s.data)).isEmpty = true
    · simp [hemp] at h
    · simp only [hemp, Bool.false_eq_true, if_false, Option.some.injEq] at h
      by_cases hfeed :
          leadsWith "feed://".data
            (pyRStrip urlTrailChars (pyStrip urlQuoteChars (pyStrip wsChars s.data))) = true
      · rw [if_pos hfeed] at h
        rw [← h]
        rfl
      · rw [if_neg hfeed] at h
        rw [← h]
        simpa using hfeed
  · intro s hne h1 h2 hfeed
    have e1 : pyStrip wsChars s.data = s.data :=
      pyStrip_of_ends (optAllOfMem _ _ fun c hc => (h1 c hc).1)
        (optAllOfMem _ _ fun c hc => (h2 c hc).1)
    have e2 : pyStrip urlQuoteChars s.data = s.data :=
      pyStrip_of_ends (optAllOfMem _ _ fun c hc => (h1 c hc).2)
        (optAllOfMem _ _ fun c hc => (h2 c hc).2.1)
    have e3 : pyRStrip urlTrailChars s.data = s.data :=
      rstrip_of_getLast (optAllOfMem _ _ fun c hc => (h2 c hc).2.2)
    have hempty : s.data.isEmpty = false := by
      simpa [List.isEmpty_iff] using hne
    unfold normalize_url
    simp [e1, e2, e3, hempty, hfeed]

/-- Witness for C8: the no-`feed://`-scheme conjunct applied to the
normalization of `feed://x.com/rss`, and the clean-string conjunct applied
to a URL with clean ends. -/
theorem c8_normalize_url_behaviour_witness :
    leadsWith "feed://".data "http://x.com/rss".data = false ∧
    normalize_url "https://ok.example/a" = some "https://ok.example/a" := by
  constructor
  · exact c8_normalize_url_behaviour.2.2.2.1 "feed://x.com/rss" "http://x.com/rss" (by decide)
  · refine c8_normalize_url_behaviour.2.2.2.2 "https://ok.example/a" (by decide) ?_ ?_ (by decide)
    · intro c hc
      rw [show ("https://ok.example/a".data.head?) = some 'h' from rfl] at hc
      simp only [Option.mem_def, Option.some.injEq] at hc
      subst hc
      decide
    · intro c hc
      rw [show ("https://ok.example/a".data.getLast?) = some 'a' from rfl] at hc
      simp only [Option.mem_def, Option.some.injEq] at hc
      subst hc
      decide

/-- The feed markers of the claim's second rule, in rule order. -/
def urlFeedMarkers : List String := ["/rss", ".rss", "/atom", ".atom", ".xml"]

/-- The api markers of the claim's third rule, in rule order. -/
def urlApiMarkers : List String := ["/api/", ".json", "api."]

/-- The classification cascade as the claim words it, written against the
marker tables: source `feeds` or a feed-bearing attribute name first, then
the lexical feed markers over the lowercased URL, then the api markers,
else `html`; first match wins. -/
def classify_url_claim (url : String) (source attr_name : Option String) : String :=
  if source == some "feeds" || attrNameIsFeed attr_name then "feed"
  else if urlFeedMarkers.any (fun m => pyContains (pyLower url) m) then "feed"
  else if urlApiMarkers.any (fun m => pyContains (pyLower url) m) then "api"
  else "html"

/-- Every classification lands in the three-value range. -/
theorem classify_url_total (url : String) (source attr_name : Option String) :
    classify_url url source attr_name = "feed" ∨
    classify_url url source attr_name = "api" ∨
    classify_url url source attr_name = "html" := by
  simp only [classify_url]
  split_ifs with h1 h2 h3
  · exact Or.inl rfl
  · exact Or.inl rfl
  · exact Or.inr (Or.inl rfl)
  · exact Or.inr (Or.inr rfl)

/-- C9: `classify_url` is deterministic first-match-wins classification —
it coincides on every input with the rule cascade stated by the claim, the
three lexical examples classify as stated, a feeds-sourced URL of plain
shape is still a feed, a feed-named attribute forces feed, and every result
is one of exactly `feed`, `api`, `html`. -/
theorem c9_classify_url_first_match_wins :
    (∀ (url : String) (source attr_name : Option String),
      classify_url url source attr_name = classify_url_claim url source attr_name) ∧
    classify_url "https://example.com/feed.rss" = "feed" ∧
    classify_url "https://example.com/api/v2/items.json" = "api" ∧
    classify_url "https://example.com/index.html" = "html" ∧
    classify_url "https://example.com/plain" (some "feeds") none = "feed" ∧
    classify_url "https://example.com/plain" none (some "myFeedUrl") = "feed" ∧
    (∀ (url : String) (source attr_name : Option String),
      classify_url url source attr_name = "feed" ∨
      classify_url url source attr_name = "api" ∨
      classify_url url source attr_name = "html") := by
  refine ⟨?_, by decide, by decide, by decide, by decide, by decide, classify_url_total⟩
  intro url source attr_name
  simp only [classify_url, classify_url_claim, urlFeedMarkers, urlApiMarkers,
    List.any_cons, List.any_nil, Bool.or_false, Bool.or_assoc]


/-- An emitted hit comes from a truthy normalized URL, and is the built
structure at that URL. -/
theorem emitNorm_sound {s : String} {F : String → EndpointHit} {h : EndpointHit}
    (heq : emitNorm s F = some h) :
    ∃ url, normalize_url s = some url ∧ url ≠ "" ∧ h = F url := by
  unfold emitNorm at heq
  split at heq
  next url hn =>
    split at heq
    next hcond =>
      injection heq with he
      exact ⟨url, hn, hcond, he.symm⟩
    next hcond => exact Option.noConfusion heq
  next hn => exact Option.noConfusion heq

/-- Every hit a feeds-list element yields has a non-empty URL and a
classification in range. -/
theorem feedEntryHit_sound {entry : Value} {h : EndpointHit}
    (heq : feedEntryHit entry = some h) :
    h.url ≠ "" ∧ (h.url_type = "feed" ∨ h.url_type = "api" ∨ h.url_type = "html") := by
  unfold feedEntryHit at heq
  split at heq
  · obtain ⟨url, -, hu, he⟩ := emitNorm_sound heq
    subst he
    exact ⟨hu, by simpa using classify_url_total url (some "feeds") none⟩
  · obtain ⟨url, -, hu, he⟩ := emitNorm_sound heq
    subst he
    exact ⟨hu, by simpa using classify_url_total url (some "feeds") none⟩
  · split at heq
    · split at heq
      · obtain ⟨url, -, hu, he⟩ := emitNorm_sound heq
        subst he
        exact ⟨hu, by simpa using classify_url_total url (some "feeds") none⟩
      · exact Option.noConfusion heq
    · exact Option.noConfusion heq
  · split at heq
    · split at heq
      · obtain ⟨url, -, hu, he⟩ := emitNorm_sound heq
        subst he
        exact ⟨hu, by simpa using classify_url_total url (some "feeds") none⟩
      · exact Option.noConfusion heq
    · exact Option.noConfusion heq
  · exact Option.noConfusion heq

/-- Every hit a class attribute yields has a non-empty URL and a
classification in range. -/
theorem attrHit_sound {name : String} {value : Value} {h : EndpointHit}
    (heq : attrHit name value = some h) :
    h.url ≠ "" ∧ (h.url_type = "feed" ∨ h.url_type = "api" ∨ h.url_type = "html") := by
  unfold attrHit at heq
  split at heq
  · split at heq
    · obtain ⟨url, -, hu, he⟩ := emitNorm_sound heq
      subst he
      exact ⟨hu, by simpa using classify_url_total url (some "attr") (some name)⟩
    · obtain ⟨url, -, hu, he⟩ := emitNorm_sound heq
      subst he
      exact ⟨hu, by simpa using classify_url_total url (some "attr") (some name)⟩
    · exact Option.noConfusion heq
  · exact Option.noConfusion heq

/-- Every literal-scanner hit has a non-empty URL and a classification in
range. -/
theorem literalHits_sound {raw : String} {h : EndpointHit} (hmem : h ∈ literalHits raw) :
    h.url ≠ "" ∧ (h.url_type = "feed" ∨ h.url_type = "api" ∨ h.url_type = "html") := by
  unfold literalHits at hmem
  obtain ⟨found, -, hf⟩ := List.mem_filterMap.mp hmem
  obtain ⟨url, -, hu, he⟩ := emitNorm_sound hf
  subst he
  exact ⟨hu, by simpa using classify_url_total url (some "literal") none⟩

/-- Every hit of the feeds extractor has a non-empty URL and a
classification in range. -/
theorem feeds_to_endpoints_sound {feeds : Option Value} {h : EndpointHit}
    (hmem : h ∈ feeds_to_endpoints feeds) :
    h.url ≠ "" ∧ (h.url_type = "feed" ∨ h.url_type = "api" ∨ h.url_type = "html") := by
  unfold feeds_to_endpoints at hmem
  split at hmem
  · obtain ⟨e, -, hf⟩ := List.mem_filterMap.mp hmem
    exact feedEntryHit_sound hf
  · obtain ⟨e, -, hf⟩ := List.mem_filterMap.mp hmem
    exact feedEntryHit_sound hf
  · exact absurd hmem (List.not_mem_nil _)

/-- Every hit of the attribute-URL extractor has a non-empty URL and a
classification in range. -/
theorem attr_url_hits_sound {assigns : Dict} {h : EndpointHit}
    (hmem : h ∈ attr_url_hits assigns) :
    h.url ≠ "" ∧ (h.url_type = "feed" ∨ h.url_type = "api" ∨ h.url_type = "html") := by
  unfold attr_url_hits at hmem
  obtain ⟨kv, -, hf⟩ := List.mem_filterMap.mp hmem
  exact attrHit_sound hf

/-- C10: every `EndpointHit` that `parse_recipe_file` produces — from the
literal scanner, the feeds list, or url-named attributes, on the parse
failure path as well as the success path — has a non-empty `url` and a
`url_type` among exactly `feed`, `api`, `html`; a hit whose URL normalizes
to empty is never emitted. -/
theorem c10_every_hit_wellformed (raw : String) (parsed : Except String (List Stmt))
    (meta : RecipeMetadata) (hits : List EndpointHit) (err : Option String)
    (hok : parse_recipe_file raw parsed = .ok (meta, hits, err)) :
    ∀ h ∈ hits, h.url ≠ "" ∧
      (h.url_type = "feed" ∨ h.url_type = "api" ∨ h.url_type = "html") := by
  cases parsed with
  | error msg =>
    simp only [parse_recipe_file] at hok
    injection hok with htup
    have hhits : hits = literalHits raw := by
      have := congrArg (fun x => x.2.1) htup
      simpa using this.symm
    subst hhits
    intro h hm
    exact literalHits_sound hm
  | ok body =>
    simp only [parse_recipe_file] at hok
    cases hc : collect_module_constants body [] with
    | error e =>
      rw [hc] at hok
      simp [Bind.bind, Except.bind] at hok
    | ok constants =>
      rw [hc] at hok
      simp only [Bind.bind, Except.bind] at hok
      split at hok
      · split at hok
        · exact Except.noConfusion hok
        · rename_i v hv
          injection hok with htup
          have hhits : hits = literalHits raw ++
              feeds_to_endpoints (Dict.get v "feeds") ++ attr_url_hits v := by
            have := congrArg (fun x => x.2.1) htup
            simpa using this.symm
          subst hhits
          intro h hm
          rcases List.mem_append.mp hm with hm2 | hm2
          · rcases List.mem_append.mp hm2 with hm3 | hm3
            · exact literalHits_sound hm3
            · exact feeds_to_endpoints_sound hm3
          · exact attr_url_hits_sound hm2
      · injection hok with htup
        have hhits : hits = literalHits raw ++
            feeds_to_endpoints (Dict.get [] "feeds") ++ attr_url_hits [] := by
          have := congrArg (fun x => x.2.1) htup
          simpa using this.symm
        subst hhits
        intro h hm
        rcases List.mem_append.mp hm with hm2 | hm2
        · rcases List.mem_append.mp hm2 with hm3 | hm3
          · exact literalHits_sound hm3
          · exact feeds_to_endpoints_sound hm3
        · exact attr_url_hits_sound hm2

/-- Witness for C10: the single literal hit of a document whose parse
fails, at a concrete raw text. -/
theorem c10_every_hit_wellformed_witness :
    ({ url := "https://e.com/a", url_type := "html", source := "literal",
       context := none, feed_title := none, raw_url := some "https://e.com/a",
       confidence := conf060 } : EndpointHit).url ≠ "" ∧
    (({ url := "https://e.com/a", url_type := "html", source := "literal",
        context := none, feed_title := none, raw_url := some "https://e.com/a",
        confidence := conf060 } : EndpointHit).url_type = "feed" ∨
     ({ url := "https://e.com/a", url_type := "html", source := "literal",
        context := none, feed_title := none, raw_url := some "https://e.com/a",
        confidence := conf060 } : EndpointHit).url_type = "api" ∨
     ({ url := "https://e.com/a", url_type := "html", source := "literal",
        context := none, feed_title := none, raw_url := some "https://e.com/a",
        confidence := conf060 } : EndpointHit).url_type = "html") :=
  c10_every_hit_wellformed "see https://e.com/a" (.error "boom") nullMetadata
    [{ url := "https://e.com/a", url_type := "html", source := "literal",
       context := none, feed_title := none, raw_url := some "https://e.com/a",
       confidence := conf060 }]
    (some "SyntaxError: boom") (by rfl)
    { url := "https://e.com/a", url_type := "html", source := "literal",
      context := none, feed_title := none, raw_url := some "https://e.com/a",
      confidence := conf060 }
    (by simp)

end CalibreExtractor
